import Mathlib

/-!
# Verification of the gedit mypy plugin (fkloft/gedit-plugin-mypy)

Shallow embedding of `src/mypy/__init__.py` and `src/mypy/gutterrenderer.py`.

Strings are modelled as `List Char`.  Python's `re` character classes are
modelled over ASCII (mypy output is ASCII):
  * `\d`    : the decimal digits `0`-`9`,
  * `\s`    : the six ASCII whitespace characters,
  * `[a-z]` with `re.I` : the ASCII letters of either case.
-/

namespace GeditMypy

/-- Class `\s` (ASCII part): space, tab, newline, carriage return, vertical tab, form feed. -/
def isSpaceC (c : Char) : Bool :=
  c = ' ' || c = '\t' || c = '\n' || c = '\r' || c = '\x0b' || c = '\x0c'

/-- Class `[a-z]` under `re.I`: an ASCII letter of either case. -/
def isAlphaCI (c : Char) : Bool :=
  ('a' ≤ c && c ≤ 'z') || ('A' ≤ c && c ≤ 'Z')

/-- Value of a list of decimal digits, as Python's `int()` computes it. -/
def digitsToNat (ds : List Char) : Nat :=
  ds.foldl (fun a c => a * 10 + (c.toNat - 48)) 0

/-!
## `Level` (src/mypy/__init__.py lines 22-49)

`Level` is a `@functools.total_ordering` enum whose members, in declaration
order, are `NOTE`, `WARN`, `ERROR`, `UNKNOWN`; `__lt__` compares indices in
the member list.
-/

inductive Level where
  | NOTE
  | WARN
  | ERROR
  | UNKNOWN
deriving DecidableEq, Repr

namespace Level

/-- Index of a member in `type(self).__members__.values()` (declaration order). -/
def idx : Level → Nat
  | .NOTE => 0
  | .WARN => 1
  | .ERROR => 2
  | .UNKNOWN => 3

/-- Method `Level.__lt__`: comparison of member-list indices. -/
def lt (a b : Level) : Prop := a.idx < b.idx

instance : LT Level := ⟨Level.lt⟩

instance : DecidableRel (fun a b : Level => a < b) :=
  fun a b => inferInstanceAs (Decidable (a.idx < b.idx))

/-- Property `level.value[0]`, the short code. -/
def code : Level → List Char
  | .NOTE => "note".toList
  | .WARN => "warning".toList
  | .ERROR => "error".toList
  | .UNKNOWN => "?".toList

/-- Property `level.value[1]`, the gutter/markup colour. -/
def color : Level → List Char
  | .NOTE => "#007FFF".toList
  | .WARN => "#f5c200".toList
  | .ERROR => "#c01c28".toList
  | .UNKNOWN => "#c64600".toList

/-- Classmethod `Level.by_code`: first member whose `code` equals the argument, else `UNKNOWN`.
The comparison is Python string equality, hence case-sensitive. -/
def by_code (s : List Char) : Level :=
  if s = NOTE.code then .NOTE
  else if s = WARN.code then .WARN
  else if s = ERROR.code then .ERROR
  else if s = UNKNOWN.code then .UNKNOWN
  else .UNKNOWN

end Level

/-!
## The line regular expression (src/mypy/__init__.py lines 286-301)

```
^(?P<path>.+):(?P<line>\d+):(?P<column>\d+):(?P<end_line>\d+):(?P<end_column>\d+):
 \s+(?P<level>[a-z]+):\s+(?P<message>.*?)(?:\s+\[(?P<rule>[a-z]+)\])?$
```
compiled with `re.I | re.VERBOSE` and applied with `re.match` to lines that
contain no newline.

The embedding reproduces the backtracking semantics of this pattern:

* `(?P<path>.+)` is greedy: the longest prefix for which the remainder of
  the pattern matches wins.
* each `(\d+):` and the `[a-z]+:` after `\s+` are forced to take their
  maximal runs: a shorter run would put a character of the same class where
  the following literal is required.
* both `\s+` occurrences take their maximal runs: the one before the level
  because a letter is required next, the one before the message because the
  tail `(.*?)(?:\s+\[[a-z]+\])?$` matches every newline-free string, so the
  engine never backtracks into it.
* `(?P<message>.*?)` is lazy and the optional rule group must reach `$`:
  the message is the shortest prefix of the remainder whose complement is
  exactly of the shape `\s+\[[a-z]+\]`; if no such split exists the message
  is the whole remainder and the rule is absent.
-/

structure LineMatch where
  path : List Char
  line : Nat
  column : Nat
  end_line : Nat
  end_column : Nat
  level : List Char
  message : List Char
  rule : Option (List Char)
deriving DecidableEq, Repr

/-- Match `\s+\[([a-z]+)\]$` against the whole of `t` (the optional rule group
followed by the end anchor); returns the rule letters. -/
def ruleSuffix (t : List Char) : Option (List Char) :=
  let w := t.takeWhile isSpaceC
  let t1 := t.dropWhile isSpaceC
  if w = [] then none
  else
    match t1 with
    | '[' :: t2 =>
      let r := t2.takeWhile isAlphaCI
      let t3 := t2.dropWhile isAlphaCI
      if r = [] then none
      else if t3 = [']'] then some r
      else none
    | _ => none

/-- Lazy expansion of `(?P<message>.*?)`: the first (shortest-message) split of
`rest` into `message ++ tail` with `ruleSuffix tail` succeeding; `none` when no
split succeeds, in which case the message is all of `rest`. -/
def findRuleSplit (acc rest : List Char) : Option (List Char × List Char) :=
  match ruleSuffix rest with
  | some r => some (acc.reverse, r)
  | none =>
    match rest with
    | [] => none
    | c :: rest' => findRuleSplit (c :: acc) rest'

/-- Match `(\d+):` at the front of `s`: maximal digit run, then a colon. -/
def parseNumColon (s : List Char) : Option (Nat × List Char) :=
  let ds := s.takeWhile Char.isDigit
  let r := s.dropWhile Char.isDigit
  if ds = [] then none
  else
    match r with
    | ':' :: r' => some (digitsToNat ds, r')
    | _ => none

/-- Match everything after `path:` —
`(\d+):(\d+):(\d+):(\d+):\s+([a-z]+):\s+(.*?)(?:\s+\[([a-z]+)\])?$`. -/
def matchAfterPath (s : List Char) :
    Option (Nat × Nat × Nat × Nat × List Char × List Char × Option (List Char)) :=
  match parseNumColon s with
  | none => none
  | some (line, s1) =>
    match parseNumColon s1 with
    | none => none
    | some (column, s2) =>
      match parseNumColon s2 with
      | none => none
      | some (end_line, s3) =>
        match parseNumColon s3 with
        | none => none
        | some (end_column, s4) =>
          let w1 := s4.takeWhile isSpaceC
          let s5 := s4.dropWhile isSpaceC
          if w1 = [] then none
          else
            let lv := s5.takeWhile isAlphaCI
            let s6 := s5.dropWhile isAlphaCI
            if lv = [] then none
            else
              match s6 with
              | ':' :: s7 =>
                let w2 := s7.takeWhile isSpaceC
                let rest := s7.dropWhile isSpaceC
                if w2 = [] then none
                else
                  match findRuleSplit [] rest with
                  | some (msg, r) =>
                    some (line, column, end_line, end_column, lv, msg, some r)
                  | none =>
                    some (line, column, end_line, end_column, lv, rest, none)
              | _ => none

/-- All decompositions `s = p ++ ':' :: r`, in order of increasing `p`. -/
def colonSplits : List Char → List (List Char × List Char)
  | [] => []
  | c :: t =>
    (if c = ':' then [(([] : List Char), t)] else []) ++
      (colonSplits t).map (fun pr => (c :: pr.1, pr.2))

/-- First success of `f` over a list (the backtracking search order). -/
def firstSome {α β : Type} (f : α → Option β) : List α → Option β
  | [] => none
  | a :: l =>
    match f a with
    | some b => some b
    | none => firstSome f l

/-- Application of `re.match` with the full pattern against one line.  The greedy `(?P<path>.+)`
tries the longest path first, so the colon decompositions are scanned in order
of decreasing prefix, skipping the empty prefix (`.+` needs one character). -/
def matchLine (s : List Char) : Option LineMatch :=
  firstSome
    (fun pr =>
      if pr.1 = [] then none
      else
        match matchAfterPath pr.2 with
        | some (l, c, el, ec, lv, msg, r) =>
          some ⟨pr.1, l, c, el, ec, lv, msg, r⟩
        | none => none)
    (colonSplits s).reverse

/-!
## `Message` (src/mypy/__init__.py lines 52-107)

`Message.__init__` copies the named groups, converts the four positions with
`int`, resolves the level with `Level.by_code`, and anchors two marks at the
buffer iterators `(line - 1, column - 1)` and `(end_line - 1, end_column - 1)`
(Python `int` subtraction, hence the `Int` type).
-/

structure Message where
  path : List Char
  line : Nat
  column : Nat
  end_line : Nat
  end_column : Nat
  level_text : List Char
  level : Level
  message : List Char
  rule : Option (List Char)
  iter_start : Int × Int
  iter_end : Int × Int
deriving DecidableEq, Repr

/-- Constructor `Message.__init__` from a successful regex match. -/
def Message.ofMatch (m : LineMatch) : Message :=
  { path := m.path
    line := m.line
    column := m.column
    end_line := m.end_line
    end_column := m.end_column
    level_text := m.level
    level := Level.by_code m.level
    message := m.message
    rule := m.rule
    iter_start := ((m.line : Int) - 1, (m.column : Int) - 1)
    iter_end := ((m.end_line : Int) - 1, (m.end_column : Int) - 1) }

/-!
## `parse_mypy` (src/mypy/__init__.py lines 277-313)

`location` is the resolved path of the active file; `Gio` file equality on
path-built files is modelled as equality of the path strings.  A line that the
regex rejects is printed to stderr (an IO side effect outside the embedding)
and skipped with `continue`.
-/

/-- Python `data.strip("\n")`. -/
def stripNL (s : List Char) : List Char :=
  ((s.dropWhile (· = '\n')).reverse.dropWhile (· = '\n')).reverse

/-- One iteration of the parse loop: regex match, `Message` construction, and
the active-file filter `if not self.location.equal(msg.get_file()): continue`. -/
def parseLine (location : List Char) (line : List Char) : Option Message :=
  match matchLine line with
  | none => none
  | some m =>
    let msg := Message.ofMatch m
    if location = msg.path then some msg else none

/-- Method `MyPyViewActivatable.parse_mypy`. -/
def parse_mypy (location : List Char) (data : List Char) : List Message :=
  let lines := if data = [] then [] else (stripNL data).splitOn '\n'
  lines.filterMap (parseLine location)

/-!
## `Message.get_pango_markup` (src/mypy/__init__.py lines 99-107)

`GLib.markup_escape_text` replaces `&` `<` `>` `'` `"` by their entities and
ASCII control characters other than tab, newline and carriage return by
hexadecimal character references.
-/

/-- Escape of a single character, per `g_markup_escape_text`. -/
def escapeChar (c : Char) : List Char :=
  if c = '&' then "&amp;".toList
  else if c = '<' then "&lt;".toList
  else if c = '>' then "&gt;".toList
  else if c = '\'' then "&apos;".toList
  else if c = '"' then "&quot;".toList
  else if (c.toNat < 0x20 && c ≠ '\t' && c ≠ '\n' && c ≠ '\r') || c.toNat = 0x7f then
    "&#x".toList ++ Nat.toDigits 16 c.toNat ++ [';']
  else [c]

/-- Function `GLib.markup_escape_text`. -/
def markup_escape_text (s : List Char) : List Char :=
  s.foldr (fun c acc => escapeChar c ++ acc) []

/-- A character the escape leaves alone. -/
def plainChar (c : Char) : Bool :=
  !(c = '&' || c = '<' || c = '>' || c = '\'' || c = '"' ||
    (c.toNat < 0x20 && c ≠ '\t' && c ≠ '\n' && c ≠ '\r') || c.toNat = 0x7f)

/-- Method `Message.get_pango_markup`: the f-string of lines 102-107, with
`text = GLib.markup_escape_text(self.message)` and the rule fragment appended
only when `self.rule` is truthy (non-`None` and non-empty). -/
def Message.get_pango_markup (m : Message) : List Char :=
  (Nat.repr m.line).toList
    ++ "<span foreground=\"#008899\">:</span>".toList
    ++ (Nat.repr m.column).toList
    ++ "<span foreground=\"#008899\">:</span> ".toList
    ++ "<span foreground=\"".toList ++ m.level.color ++ "\"><b>".toList
    ++ m.level_text ++ ":</b></span> ".toList
    ++ markup_escape_text m.message
    ++ (match m.rule with
        | some r =>
          if r = [] then []
          else " <span foreground=\"#916a42\">[".toList ++ r ++ "]</span>".toList
        | none => [])

/-!
## `GutterRenderer.do_draw` (src/mypy/gutterrenderer.py lines 24-46)

The draw callback receives the cell's text range `[start, end]`.  Its loop
computes `msg_start` / `msg_end` (`None` for a deleted mark, otherwise the
iterator at the mark), skips a message with `continue` when both are `None`,
and then reaches the end of the loop body — the remaining text of the body is
a comment, so nothing is ever appended to `messages`.  After the loop,
`if not messages: return` (no paint); the code below that point
(`sorted(m["level"] for m in messages)[-1]` and the cairo fill with
`level.color`) is unreachable — and would raise `TypeError` if reached,
since `messages` would hold `Message` objects, not dicts.
-/

/-- A message as the gutter sees it: its level and the current state of its
two marks (deleted, or anchored at a buffer position). -/
structure GutterMsg where
  level : Level
  startDeleted : Bool
  endDeleted : Bool
  startPos : Int × Int
  endPos : Int × Int
deriving DecidableEq, Repr

/-- Greatest element of a list of levels, as `sorted(...)[-1]` produces it. -/
def levelsTop (l : List Level) (dflt : Level) : Level :=
  l.foldl (fun a b => if a.idx < b.idx then b else a) dflt

/-- Method `GutterRenderer.do_draw`: returns the fill colour, or `none` when the
callback returns without painting. -/
def do_draw (context_data : List GutterMsg) (start stop : Int × Int) :
    Option (List Char) :=
  let messages : List GutterMsg :=
    context_data.foldl
      (fun acc msg =>
        let msg_start := if msg.startDeleted then none else some msg.startPos
        let msg_end := if msg.endDeleted then none else some msg.endPos
        if msg_start = none ∧ msg_end = none then acc
        else acc)
      []
  if messages = [] then none
  else some ((levelsTop (messages.map GutterMsg.level) .NOTE).color)

/-!
## `find_project_folder` and `update_location` (src/mypy/__init__.py 181-210)

A `Gio.File` location is modelled as its list of path components below the
filesystem root: `[]` is the root (`has_parent()` false), `get_parent` drops
the last component, `get_child name` appends it.  `query_exists` is an
abstract predicate `ex` on paths.
-/

/-- Constant `PROJECT_FILES = (".mypy.ini", "pyproject.toml", "setup.cfg")`. -/
def PROJECT_FILES : List (List Char) :=
  [".mypy.ini".toList, "pyproject.toml".toList, "setup.cfg".toList]

/-- Does `folder` directly contain one of the marker files? -/
def hasMarker (ex : List (List Char) → Bool) (folder : List (List Char)) : Bool :=
  PROJECT_FILES.any (fun fn => ex (folder ++ [fn]))

/-- Body of the `while folder.has_parent(): folder = folder.get_parent(); ...`
loop, with an explicit iteration bound (each iteration replaces `folder` by
its parent, so the component count of the starting folder bounds the loop
exactly). -/
def fpfGo (ex : List (List Char) → Bool) (folder : List (List Char)) :
    Nat → Option (List (List Char))
  | 0 => none
  | n + 1 =>
    if folder = [] then none
    else
      let parent := folder.dropLast
      if hasMarker ex parent then some parent
      else fpfGo ex parent n

/-- The `while folder.has_parent()` loop of `find_project_folder`: the first
ancestor (parent, grandparent, …, root) containing a marker file, or `none`
when the loop exhausts. -/
def fpfLoop (ex : List (List Char) → Bool)
    (folder : List (List Char)) : Option (List (List Char)) :=
  fpfGo ex folder folder.length

/-- Method `MyPyViewActivatable.find_project_folder`: `none` models the
`FileNotFoundError` raised when the location has no parent; otherwise the
loop result, falling back on `self.location.get_parent()`. -/
def find_project_folder (ex : List (List Char) → Bool)
    (location : List (List Char)) : Option (List (List Char)) :=
  if location = [] then none
  else some ((fpfLoop ex location).getD location.dropLast)

/-- Outcome of `update_location` for the gutter integration. -/
inductive UpdOutcome where
  | disconnected
  | connected
deriving DecidableEq, Repr

/-- Method `MyPyViewActivatable.update_location`, reduced to its control flow:
`should_check` false → `disconnect_gutter`; otherwise, when the location
changed, `find_project_folder` is re-run and a `FileNotFoundError`
(modelled `none`) leads to `disconnect_gutter`, every other path to
`connect_gutter` + `update`. -/
def update_location (shouldCheck locationChanged : Bool)
    (ex : List (List Char) → Bool) (location : List (List Char)) : UpdOutcome :=
  if !shouldCheck then .disconnected
  else if locationChanged then
    match find_project_folder ex location with
    | none => .disconnected
    | some _ => .connected
  else .connected

/-!
## The polling lifecycle (src/mypy/__init__.py lines 155-158, 230-275)

`update()` first removes the pending `parse_signal` watch (lines 231-233) and
then registers a fresh `GLib.io_add_watch` for the new checker process
(line 275); `on_notify_buffer` and `do_deactivate` remove the watch without
starting a new one; when the watch's callback finishes reading it calls
`parse_mypy` (committing the run's result) and clears `parse_signal`
(lines 270-273).  `GLib.source_remove` destroys the watch, so a removed
watch's callback never fires again.  Watch ids are modelled as the positive
naturals handed out in order; `0` is the sentinel for "no watch", as in the
code.
-/

structure PollState where
  parseSignal : Nat
  active : List Nat
  nextId : Nat
  committed : List Nat
deriving DecidableEq, Repr

/-- The initial state (`__init__`: `self.parse_signal = 0`). -/
def PollState.init : PollState :=
  { parseSignal := 0, active := [], nextId := 1, committed := [] }

/-- Method `update()`: `GLib.source_remove` of the pending watch, then
`GLib.io_add_watch` of a fresh one. -/
def PollState.update (s : PollState) : PollState :=
  { parseSignal := s.nextId
    active := (s.active.filter (· ≠ s.parseSignal)) ++ [s.nextId]
    nextId := s.nextId + 1
    committed := s.committed }

/-- Methods `on_notify_buffer` / `do_deactivate` / the `FileNotFoundError` branch:
remove the pending watch without starting a new one. -/
def PollState.cancel (s : PollState) : PollState :=
  { parseSignal := 0
    active := s.active.filter (· ≠ s.parseSignal)
    nextId := s.nextId
    committed := s.committed }

/-- The watch `id` fires its final `on_read`: `parse_mypy` commits the run's
result and `parse_signal` is cleared. -/
def PollState.finish (s : PollState) (id : Nat) : PollState :=
  { parseSignal := 0
    active := s.active.filter (· ≠ id)
    nextId := s.nextId
    committed := s.committed ++ [id] }

/-- The events the GLib main loop can deliver. -/
inductive PollStep : PollState → PollState → Prop where
  | update (s : PollState) : PollStep s s.update
  | cancel (s : PollState) : PollStep s s.cancel
  | finish (s : PollState) (id : Nat) (hmem : id ∈ s.active) :
      PollStep s (s.finish id)

/-- States reachable from plugin initialisation. -/
def PollReachable (s : PollState) : Prop :=
  Relation.ReflTransGen PollStep PollState.init s

/-- Bounded chain of proper ancestors, nearest first. -/
def ancestorChainGo : Nat → List (List Char) → List (List (List Char))
  | 0, _ => []
  | n + 1, l =>
    if l = [] then [] else l.dropLast :: ancestorChainGo n l.dropLast

/-- The chain of proper ancestors of a location, nearest first, ending at the
root `[]`. -/
def ancestorChain (l : List (List Char)) : List (List (List Char)) :=
  ancestorChainGo l.length l

/-!
## Helper lemmas
-/

theorem parseLine_shape {loc l : List Char} {m : Message}
    (h : parseLine loc l = some m) :
    ∃ lm, matchLine l = some lm ∧ m = Message.ofMatch lm ∧
      loc = (Message.ofMatch lm).path := by
  unfold parseLine at h
  cases hm : matchLine l with
  | none => rw [hm] at h; exact absurd h (by simp)
  | some lm =>
    rw [hm] at h
    dsimp only at h
    split at h
    · exact ⟨lm, rfl, (Option.some_inj.mp h).symm, by assumption⟩
    · exact absurd h (by simp)

theorem mem_parse_mypy {loc data : List Char} {m : Message}
    (h : m ∈ parse_mypy loc data) :
    ∃ l, parseLine loc l = some m := by
  unfold parse_mypy at h
  rcases List.mem_filterMap.mp h with ⟨l, _, hl⟩
  exact ⟨l, hl⟩

/-!
## Claims
-/

/-- C1: parsing the line
`"/a/b.py:10:5:10:12: error: Incompatible types [assignment]"` with the active
file `/a/b.py` yields exactly one diagnostic, with severity `ERROR`, rule
`"assignment"`, message `"Incompatible types"`, on checker line 10 with stored
(zero-indexed) start column 4 = 5 - 1 and stored end column 11 = 12 - 1 —
i.e. the checker's 1-indexed columns are stored minus one, for the start and
the end column alike. -/
theorem c1_parse_example :
    (parse_mypy "/a/b.py".toList
        "/a/b.py:10:5:10:12: error: Incompatible types [assignment]".toList).map
        (fun m => (m.level, m.rule, m.message, m.line, m.iter_start.2,
                   m.end_line, m.iter_end.2, m.column, m.end_column)) =
      [(Level.ERROR, some "assignment".toList, "Incompatible types".toList,
        10, (4 : Int), 10, (11 : Int), 5, 12)] := by
  rfl

/-- C4: every message retained by `parse_mypy` has a path equal to the active
file's resolved location; records for other paths are dropped by the
`location.equal(msg.get_file())` filter. -/
theorem c4_path_invariant :
    ∀ loc data : List Char, ∀ m ∈ parse_mypy loc data, m.path = loc := by
  intro loc data m hm
  obtain ⟨l, hl⟩ := mem_parse_mypy hm
  obtain ⟨lm, _, hofm, hpath⟩ := parseLine_shape hl
  rw [hofm, ← hpath]

/-- Witness for C4: the dependency record for `/other.py` is dropped and the
record for the active `/a/b.py` keeps exactly the active path. -/
theorem c4_witness :
    (Message.ofMatch
        ⟨"/a/b.py".toList, 3, 1, 3, 2, "note".toList, "mine".toList, none⟩) ∈
      parse_mypy "/a/b.py".toList
        "/other.py:1:1:1:2: error: dep\n/a/b.py:3:1:3:2: note: mine".toList ∧
    (Message.ofMatch
        ⟨"/a/b.py".toList, 3, 1, 3, 2, "note".toList, "mine".toList, none⟩).path =
      "/a/b.py".toList :=
  ⟨by decide, c4_path_invariant "/a/b.py".toList
    "/other.py:1:1:1:2: error: dep\n/a/b.py:3:1:3:2: note: mine".toList _
    (by decide)⟩

/-- C5: `parse_mypy` is a total function (it is a Lean `def`, defined for
every input); the empty input yields the empty diagnostic list, and every
input yields at most one diagnostic per line of the split input. -/
theorem c5_total_parse :
    (∀ loc : List Char, parse_mypy loc [] = []) ∧
    (∀ loc data : List Char,
      (parse_mypy loc data).length ≤ ((stripNL data).splitOn '\n').length) := by
  constructor
  · intro loc; rfl
  · intro loc data
    unfold parse_mypy
    by_cases h : data = []
    · simp [h]
    · simp only [h, if_neg, ite_false]
      exact List.length_filterMap_le _ _

/-- C3 counterexample: the lines `"/a/b.py:1:2:3:4: Error: boom"` and
`"/a/b.py:1:2:3:4: ERROR: boom"` match the grammar (the regex is compiled with
`re.I`), yet `Level.by_code` compares the matched text case-sensitively, so
both yield severity `UNKNOWN`, not `ERROR` as the claim states. -/
theorem c3_counterexample :
    (parse_mypy "/a/b.py".toList "/a/b.py:1:2:3:4: Error: boom".toList).map
        (fun m => (m.level_text, m.level)) =
      [("Error".toList, Level.UNKNOWN)] ∧
    (parse_mypy "/a/b.py".toList "/a/b.py:1:2:3:4: ERROR: boom".toList).map
        (fun m => (m.level_text, m.level)) =
      [("ERROR".toList, Level.UNKNOWN)] := by
  constructor <;> rfl

/-- C3 (amended): the severity word is matched case-insensitively by the
grammar (a mixed-case word still yields a diagnostic), but the mapping to a
severity is case-sensitive on the matched text: exactly `"note"` maps to
`NOTE`, `"warning"` to `WARN`, `"error"` to `ERROR`, and any other text —
including capitalised variants such as `"Error"` — maps to `UNKNOWN`; every
parsed message's severity is `by_code` of its matched severity word. -/
theorem c3_severity_mapping :
    Level.by_code "note".toList = Level.NOTE ∧
    Level.by_code "warning".toList = Level.WARN ∧
    Level.by_code "error".toList = Level.ERROR ∧
    (∀ s : List Char, s ≠ "note".toList → s ≠ "warning".toList →
      s ≠ "error".toList → Level.by_code s = Level.UNKNOWN) ∧
    (matchLine "/a/b.py:1:2:3:4: eRrOr: boom".toList).isSome = true ∧
    (∀ loc data : List Char, ∀ m ∈ parse_mypy loc data,
      m.level = Level.by_code m.level_text) := by
  refine ⟨rfl, rfl, rfl, ?_, rfl, ?_⟩
  · intro s h1 h2 h3
    simp only [Level.by_code, Level.code]
    rw [if_neg h1, if_neg h2, if_neg h3]
    split <;> rfl
  · intro loc data m hm
    obtain ⟨l, hl⟩ := mem_parse_mypy hm
    obtain ⟨lm, _, hofm, _⟩ := parseLine_shape hl
    rw [hofm]
    rfl

/-- Witness for C3: the unrecognised code `"Error"` maps to `UNKNOWN`, and the
message parsed from a concrete note line carries `by_code` of its word. -/
theorem c3_witness :
    Level.by_code "Error".toList = Level.UNKNOWN ∧
    ∀ m ∈ parse_mypy "/a/b.py".toList "/a/b.py:1:2:3:4: note: n".toList,
      m.level = Level.by_code m.level_text :=
  ⟨c3_severity_mapping.2.2.2.1 "Error".toList (by decide) (by decide) (by decide),
   fun m hm =>
     c3_severity_mapping.2.2.2.2.2 "/a/b.py".toList
       "/a/b.py:1:2:3:4: note: n".toList m hm⟩

/-- C6: a line the grammar rejects is skipped and never prevents parsing of
the remaining lines — the diagnostics of the surrounding lines survive, in
emission order; concretely, `"random garbage"` between two valid lines yields
exactly the two valid records in the original order.  (The `print` to stderr
accompanying the skip is an IO side effect outside the embedding.) -/
theorem c6_skip_invalid :
    (∀ loc l : List Char, ∀ pre post : List (List Char),
      parseLine loc l = none →
      (pre ++ l :: post).filterMap (parseLine loc) =
        pre.filterMap (parseLine loc) ++ post.filterMap (parseLine loc)) ∧
    (∀ loc data : List Char,
      parse_mypy loc data =
        (if data = [] then [] else (stripNL data).splitOn '\n').filterMap
          (parseLine loc)) ∧
    (parse_mypy "/a/b.py".toList
        "/a/b.py:1:1:1:2: error: first\nrandom garbage\n/a/b.py:3:1:3:2: warning: second".toList).map
        (fun m => (m.line, m.message, m.level)) =
      [(1, "first".toList, Level.ERROR), (3, "second".toList, Level.WARN)] := by
  refine ⟨?_, fun loc data => rfl, rfl⟩
  intro loc l pre post h
  simp [List.filterMap_append, List.filterMap_cons, h]

/-- Witness for C6: the garbage line is rejected, and splicing it between two
valid lines leaves exactly the two valid parses. -/
theorem c6_witness :
    parseLine "/a/b.py".toList "random garbage".toList = none ∧
    (["/a/b.py:1:1:1:2: error: first".toList] ++
        "random garbage".toList :: ["/a/b.py:3:1:3:2: warning: second".toList]).filterMap
        (parseLine "/a/b.py".toList) =
      ["/a/b.py:1:1:1:2: error: first".toList].filterMap
          (parseLine "/a/b.py".toList) ++
        ["/a/b.py:3:1:3:2: warning: second".toList].filterMap
          (parseLine "/a/b.py".toList) :=
  ⟨by decide,
   c6_skip_invalid.1 "/a/b.py".toList "random garbage".toList
     ["/a/b.py:1:1:1:2: error: first".toList]
     ["/a/b.py:3:1:3:2: warning: second".toList] (by decide)⟩

theorem level_lt_total (a b : Level) : a < b ∨ a = b ∨ b < a := by
  cases a <;> cases b <;> simp
  all_goals first
    | exact Or.inl (by decide)
    | exact Or.inr (by decide)

theorem level_lt_trans {a b c : Level} (h1 : a < b) (h2 : b < c) : a < c := by
  revert h1 h2
  cases a <;> cases b <;> cases c <;> decide

theorem level_exists_max :
    ∀ l : List Level, l ≠ [] → ∃ m, m ∈ l ∧ ∀ x ∈ l, x = m ∨ x < m := by
  intro l
  induction l with
  | nil => intro h; exact absurd rfl h
  | cons a t ih =>
    intro _
    by_cases ht : t = []
    · subst ht
      exact ⟨a, List.mem_singleton.mpr rfl,
        fun x hx => Or.inl (List.mem_singleton.mp hx)⟩
    · obtain ⟨m, hm, hmax⟩ := ih ht
      rcases level_lt_total a m with hlt | heq | hgt
      · refine ⟨m, List.mem_cons_of_mem _ hm, ?_⟩
        intro x hx
        rcases List.mem_cons.mp hx with rfl | hx'
        · exact Or.inr hlt
        · exact hmax x hx'
      · refine ⟨m, List.mem_cons_of_mem _ hm, ?_⟩
        intro x hx
        rcases List.mem_cons.mp hx with rfl | hx'
        · exact Or.inl heq
        · exact hmax x hx'
      · refine ⟨a, List.mem_cons_self _ _, ?_⟩
        intro x hx
        rcases List.mem_cons.mp hx with rfl | hx'
        · exact Or.inl rfl
        · rcases hmax x hx' with rfl | hlt'
          · exact Or.inr hgt
          · exact Or.inr (level_lt_trans hlt' hgt)

/-- C7: the severity order: `NOTE < WARN < ERROR < UNKNOWN` (declaration
order), the order is total, transitive and irreflexive, `UNKNOWN` sorts
strictly above `ERROR`, and every non-empty list of severities has a greatest
element. -/
theorem c7_level_order :
    (Level.NOTE < Level.WARN ∧ Level.WARN < Level.ERROR ∧
      Level.ERROR < Level.UNKNOWN) ∧
    (∀ a b : Level, a < b ∨ a = b ∨ b < a) ∧
    (∀ a b c : Level, a < b → b < c → a < c) ∧
    (∀ a : Level, ¬a < a) ∧
    (∀ l : List Level, l ≠ [] → ∃ m, m ∈ l ∧ ∀ x ∈ l, x = m ∨ x < m) := by
  exact ⟨by decide, level_lt_total, fun a b c => level_lt_trans,
    fun a => by cases a <;> decide, level_exists_max⟩

/-- Witness for C7: transitivity at `NOTE < ERROR < UNKNOWN` and the greatest
element of a concrete non-empty severity list. -/
theorem c7_witness :
    Level.NOTE < Level.UNKNOWN ∧
    ∃ m, m ∈ [Level.ERROR, Level.NOTE, Level.ERROR] ∧
      ∀ x ∈ [Level.ERROR, Level.NOTE, Level.ERROR], x = m ∨ x < m :=
  ⟨c7_level_order.2.2.1 Level.NOTE Level.ERROR Level.UNKNOWN (by decide)
      (by decide),
   c7_level_order.2.2.2.2 [Level.ERROR, Level.NOTE, Level.ERROR] (by decide)⟩

theorem foldl_keep {α β : Type} (l : List α) (acc : β) :
    l.foldl (fun a _ => a) acc = acc := by
  induction l generalizing acc with
  | nil => rfl
  | cons x t ih => exact ih acc

/-- C2: the draw callback never paints.  Its loop computes the mark
iterators and skips fully-deleted messages but never appends to `messages`
(the rest of the loop body is commented out in the source), so
`if not messages: return` always fires — even for a context holding a live
`ERROR` diagnostic overlapping the queried range, contradicting the
specified intersection/severity behaviour. -/
theorem c2_draw_never_paints :
    (∀ (ctx : List GutterMsg) (start stop : Int × Int),
      do_draw ctx start stop = none) ∧
    do_draw
        [{ level := Level.ERROR, startDeleted := false, endDeleted := false,
           startPos := (9, 4), endPos := (9, 11) }] (9, 0) (9, 80) = none := by
  have main : ∀ (ctx : List GutterMsg) (start stop : Int × Int),
      do_draw ctx start stop = none := by
    intro ctx start stop
    unfold do_draw
    have hfun : (fun (acc : List GutterMsg) (msg : GutterMsg) =>
        let msg_start := if msg.startDeleted then none else some msg.startPos
        let msg_end := if msg.endDeleted then none else some msg.endPos
        if msg_start = none ∧ msg_end = none then acc else acc) =
        fun (acc : List GutterMsg) (_ : GutterMsg) => acc := by
      funext acc msg
      dsimp only
      rw [ite_self]
    rw [hfun, foldl_keep]
    rfl
  exact ⟨main, main _ _ _⟩

theorem fpfGo_eq_find (ex : List (List Char) → Bool) :
    ∀ (n : Nat) (l : List (List Char)),
      fpfGo ex l n = (ancestorChainGo n l).find? (hasMarker ex) := by
  intro n
  induction n with
  | zero => intro l; rfl
  | succ n ih =>
    intro l
    by_cases hl : l = []
    · simp [fpfGo, ancestorChainGo, hl]
    · cases hm : hasMarker ex l.dropLast with
      | true => simp [fpfGo, ancestorChainGo, hl, hm]
      | false =>
        have h1 : fpfGo ex l (n + 1) = fpfGo ex l.dropLast n := by
          simp [fpfGo, hl, hm]
        have h2 : ancestorChainGo (n + 1) l =
            l.dropLast :: ancestorChainGo n l.dropLast := by
          simp [ancestorChainGo, hl]
        rw [h1, h2, List.find?_cons_of_neg _ (by simp [hm])]
        exact ih l.dropLast

theorem fpfLoop_eq_find (ex : List (List Char) → Bool)
    (loc : List (List Char)) :
    fpfLoop ex loc = (ancestorChain loc).find? (hasMarker ex) :=
  fpfGo_eq_find ex loc.length loc

/-- C8: `find_project_folder` fails (raises, modelled `none`) exactly when the
location has no parent, and `update_location` then disconnects the gutter
rather than surfacing an error; for a location with a parent it returns the
first (nearest) ancestor — parent, grandparent, …, root — owning one of the
marker files `.mypy.ini`, `pyproject.toml`, `setup.cfg`, and the immediate
parent when no ancestor owns one. -/
theorem c8_project_root :
    (∀ ex, find_project_folder ex [] = none) ∧
    (∀ ex (loc : List (List Char)), loc ≠ [] →
      find_project_folder ex loc =
        some (((ancestorChain loc).find? (hasMarker ex)).getD loc.dropLast)) ∧
    (∀ ex, update_location true true ex [] = UpdOutcome.disconnected) := by
  refine ⟨fun ex => rfl, ?_, fun ex => rfl⟩
  intro ex loc hne
  unfold find_project_folder
  rw [if_neg hne, fpfLoop_eq_find]

/-- Witness for C8: for `/home/proj/a.py` with the only marker at
`/home/pyproject.toml`, the project root is `/home` — the nearest ancestor
with a marker, skipping the markerless parent `/home/proj`. -/
theorem c8_witness :
    (["home".toList, "proj".toList, "a.py".toList] : List (List Char)) ≠ [] ∧
    find_project_folder
        (fun p => decide (p = ["home".toList, "pyproject.toml".toList]))
        ["home".toList, "proj".toList, "a.py".toList] =
      some (((ancestorChain ["home".toList, "proj".toList, "a.py".toList]).find?
          (hasMarker
            (fun p => decide (p = ["home".toList, "pyproject.toml".toList])))).getD
        (["home".toList, "proj".toList, "a.py".toList] : List (List Char)).dropLast) ∧
    find_project_folder
        (fun p => decide (p = ["home".toList, "pyproject.toml".toList]))
        ["home".toList, "proj".toList, "a.py".toList] = some ["home".toList] :=
  ⟨by decide,
   c8_project_root.2.1
     (fun p => decide (p = ["home".toList, "pyproject.toml".toList]))
     ["home".toList, "proj".toList, "a.py".toList] (by decide),
   by decide⟩

/-- Invariant of the polling lifecycle: the live watches are exactly the one
named by `parse_signal` (none when it is `0`), ids are handed out below
`nextId`, every committed run is older than the pending one, and commits
happen in strictly increasing run order. -/
def PollInv (s : PollState) : Prop :=
  (s.active = if s.parseSignal = 0 then [] else [s.parseSignal]) ∧
  0 < s.nextId ∧ s.parseSignal < s.nextId ∧
  (∀ c ∈ s.committed, c < s.nextId) ∧
  (s.parseSignal ≠ 0 → ∀ c ∈ s.committed, c < s.parseSignal) ∧
  List.Chain' (· < ·) s.committed

theorem chain_lt_append_one {l : List Nat} {x : Nat}
    (hch : List.Chain' (· < ·) l) (hall : ∀ c ∈ l, c < x) :
    List.Chain' (· < ·) (l ++ [x]) := by
  rw [List.chain'_append]
  refine ⟨hch, List.chain'_singleton x, ?_⟩
  intro a ha b hb
  simp only [List.head?_cons, Option.mem_def, Option.some_inj] at hb
  subst hb
  exact hall a (List.mem_of_mem_getLast? ha)

theorem pollInv_init : PollInv PollState.init := by
  refine ⟨rfl, Nat.one_pos, Nat.zero_lt_one, ?_, ?_, List.chain'_nil⟩
  · intro c hc; cases hc
  · intro _ c hc; cases hc

theorem pollInv_step {s t : PollState} (h : PollInv s) (hs : PollStep s t) :
    PollInv t := by
  obtain ⟨ha, hpos, hps, hcn, hcp, hch⟩ := h
  cases hs with
  | update =>
    have hnz : s.nextId ≠ 0 := Nat.pos_iff_ne_zero.mp hpos
    refine ⟨?_, ?_, ?_, ?_, ?_, hch⟩
    · show (s.active.filter (· ≠ s.parseSignal)) ++ [s.nextId] =
        if s.nextId = 0 then [] else [s.nextId]
      rw [ha, if_neg hnz]
      by_cases h0 : s.parseSignal = 0 <;> simp [h0]
    · exact Nat.lt_succ_of_lt hpos
    · exact Nat.lt_succ_self _
    · exact fun c hc => Nat.lt_succ_of_lt (hcn c hc)
    · exact fun _ c hc => hcn c hc
  | cancel =>
    refine ⟨?_, hpos, hpos, hcn, ?_, hch⟩
    · show s.active.filter (· ≠ s.parseSignal) = if (0 : Nat) = 0 then [] else _
      rw [ha, if_pos rfl]
      by_cases h0 : s.parseSignal = 0 <;> simp [h0]
    · intro h0; exact absurd rfl h0
  | finish id hmem =>
    have hps0 : s.parseSignal ≠ 0 := by
      intro h0
      rw [ha, if_pos h0] at hmem
      cases hmem
    have hid : id = s.parseSignal := by
      rw [ha, if_neg hps0] at hmem
      simpa using hmem
    refine ⟨?_, hpos, hpos, ?_, ?_, ?_⟩
    · show s.active.filter (· ≠ id) = if (0 : Nat) = 0 then [] else _
      rw [ha, if_neg hps0, if_pos rfl, hid]
      simp
    · intro c hc
      rcases List.mem_append.mp hc with hc' | hc'
      · exact hcn c hc'
      · rw [List.mem_singleton.mp hc', hid]
        exact hps
    · intro h0; exact absurd rfl h0
    · exact chain_lt_append_one hch (fun c hc => hid ▸ hcp hps0 c hc)

theorem pollInv_reachable {s : PollState} (h : PollReachable s) : PollInv s := by
  induction h with
  | refl => exact pollInv_init
  | tail _ hstep ih => exact pollInv_step ih hstep

/-- C9: in every reachable state of the polling lifecycle at most one watch
callback is live (`update` removes the pending watch before registering a new
one, and the other paths only remove), and the committed parse results appear
in strictly increasing run order — a run superseded by a newer `update` has
been removed from the live watches and can never commit after (or over) the
newer run's result. -/
theorem c9_single_poll :
    ∀ s : PollState, PollReachable s →
      s.active.length ≤ 1 ∧ List.Pairwise (· < ·) s.committed := by
  intro s h
  obtain ⟨ha, _, _, _, _, hch⟩ := pollInv_reachable h
  constructor
  · rw [ha]
    split <;> simp
  · exact List.chain'_iff_pairwise.mp hch

/-- Witness for C9: the state after one `update` (a running check) is
reachable, has a single live watch, and an increasing commit history. -/
theorem c9_witness :
    PollReachable PollState.init.update ∧
    PollState.init.update.active.length ≤ 1 ∧
    List.Pairwise (· < ·) PollState.init.update.committed :=
  ⟨Relation.ReflTransGen.single (PollStep.update _),
   c9_single_poll PollState.init.update
     (Relation.ReflTransGen.single (PollStep.update _))⟩

theorem escapeChar_plain {c : Char} (h : plainChar c = true) :
    escapeChar c = [c] := by
  unfold plainChar at h
  rw [Bool.not_eq_true'] at h
  simp only [Bool.or_eq_false_iff] at h
  obtain ⟨⟨⟨⟨⟨⟨h1, h2⟩, h3⟩, h4⟩, h5⟩, h6⟩, h7⟩ := h
  unfold escapeChar
  rw [if_neg (of_decide_eq_false h1), if_neg (of_decide_eq_false h2),
    if_neg (of_decide_eq_false h3), if_neg (of_decide_eq_false h4),
    if_neg (of_decide_eq_false h5), if_neg ?_]
  intro hx
  rw [Bool.or_eq_true] at hx
  rcases hx with hx | hx
  · rw [h6] at hx; exact Bool.noConfusion hx
  · rw [h7] at hx; exact Bool.noConfusion hx

theorem markup_escape_plain {s : List Char}
    (h : ∀ c ∈ s, plainChar c = true) : markup_escape_text s = s := by
  induction s with
  | nil => rfl
  | cons c t ih =>
    unfold markup_escape_text
    show escapeChar c ++ t.foldr (fun c acc => escapeChar c ++ acc) [] = c :: t
    rw [escapeChar_plain (h c (List.mem_cons_self c t))]
    have := ih (fun x hx => h x (List.mem_cons_of_mem c hx))
    unfold markup_escape_text at this
    rw [this]
    rfl

theorem ruleSuffix_ne_nil {t r : List Char} (h : ruleSuffix t = some r) :
    r ≠ [] := by
  unfold ruleSuffix at h
  dsimp only at h
  split at h
  · exact absurd h (by simp)
  · split at h
    · split at h
      · exact absurd h (by simp)
      · split at h
        · rename_i hr _
          rw [Option.some_inj.mp h] at hr
          exact hr
        · exact absurd h (by simp)
    · exact absurd h (by simp)

theorem findRuleSplit_rule_ne_nil :
    ∀ (rest acc msg r : List Char),
      findRuleSplit acc rest = some (msg, r) → r ≠ [] := by
  intro rest
  induction rest with
  | nil =>
    intro acc msg r h
    rw [findRuleSplit] at h
    cases hrs : ruleSuffix [] with
    | some r' =>
      rw [hrs] at h
      obtain ⟨_, hr⟩ := Prod.mk.injEq .. ▸ Option.some_inj.mp h
      exact hr ▸ ruleSuffix_ne_nil hrs
    | none => rw [hrs] at h; exact absurd h (by simp)
  | cons c rest' ih =>
    intro acc msg r h
    rw [findRuleSplit] at h
    cases hrs : ruleSuffix (c :: rest') with
    | some r' =>
      rw [hrs] at h
      obtain ⟨_, hr⟩ := Prod.mk.injEq .. ▸ Option.some_inj.mp h
      exact hr ▸ ruleSuffix_ne_nil hrs
    | none => rw [hrs] at h; exact ih (c :: acc) msg r h

theorem firstSome_some {α β : Type} {f : α → Option β} {b : β} :
    ∀ {l : List α}, firstSome f l = some b → ∃ a ∈ l, f a = some b := by
  intro l
  induction l with
  | nil => intro h; cases h
  | cons a t ih =>
    intro h
    rw [firstSome] at h
    cases hf : f a with
    | some b' =>
      rw [hf] at h
      exact ⟨a, List.mem_cons_self a t, hf.trans h⟩
    | none =>
      rw [hf] at h
      obtain ⟨x, hx, hfx⟩ := ih h
      exact ⟨x, List.mem_cons_of_mem a hx, hfx⟩

theorem matchAfterPath_rule_ne_nil {s : List Char}
    {l c el ec : Nat} {lv msg r : List Char}
    (h : matchAfterPath s = some (l, c, el, ec, lv, msg, some r)) :
    r ≠ [] := by
  unfold matchAfterPath at h
  repeat' split at h
  all_goals simp only [Option.some.injEq, Prod.mk.injEq, reduceCtorEq] at h
  repeat' split at h
  all_goals simp only [Option.some.injEq, Prod.mk.injEq, reduceCtorEq] at h
  · obtain ⟨-, -, -, -, -, -, hr⟩ := h
    subst hr
    exact findRuleSplit_rule_ne_nil _ _ _ _ (by assumption)
  · exact h.2.2.2.2.2.2.elim

theorem matchLine_rule_ne_nil {s : List Char} {lm : LineMatch}
    (h : matchLine s = some lm) : ∀ r, lm.rule = some r → r ≠ [] := by
  intro r hr
  unfold matchLine at h
  obtain ⟨pr, _, hf⟩ := firstSome_some h
  split at hf
  · exact absurd hf (by simp)
  · split at hf
    · rename_i hmap
      rw [← Option.some_inj.mp hf] at hr
      simp only at hr
      exact matchAfterPath_rule_ne_nil (hr ▸ hmap)
    · exact absurd hf (by simp)

set_option maxRecDepth 100000 in
/-- C10 counterexample: the line `"/a/b.py:1:1:1:2: error: a<b [x]"` matches
the grammar with message `"a<b"`, but `get_pango_markup` escapes the message
(`a&lt;b`), so the produced markup does not contain the original message
substring verbatim. -/
theorem c10_counterexample :
    ¬ ∀ m ∈ parse_mypy "/a/b.py".toList
        "/a/b.py:1:1:1:2: error: a<b [x]".toList,
      List.IsInfix m.message m.get_pango_markup := by
  decide

/-- C10 (amended): for every parsed diagnostic, the tooltip markup contains
the rule substring verbatim whenever a rule was parsed, and contains the
message substring verbatim provided the message has no character changed by
`GLib.markup_escape_text` (`&`, `<`, `>`, `'`, `"`, or a control character
other than tab/newline/carriage return). -/
theorem c10_roundtrip :
    ∀ loc data : List Char, ∀ m ∈ parse_mypy loc data,
      ((∀ c ∈ m.message, plainChar c = true) →
        List.IsInfix m.message m.get_pango_markup) ∧
      (∀ r, m.rule = some r → List.IsInfix r m.get_pango_markup) := by
  intro loc data m hm
  obtain ⟨l, hl⟩ := mem_parse_mypy hm
  obtain ⟨lm, hml, hofm, -⟩ := parseLine_shape hl
  have hrule : ∀ r, m.rule = some r → r ≠ [] := by
    intro r hr
    apply matchLine_rule_ne_nil hml
    rw [hofm] at hr
    exact hr
  constructor
  · intro hplain
    have hesc : markup_escape_text m.message = m.message :=
      markup_escape_plain hplain
    refine ⟨(Nat.repr m.line).toList
        ++ "<span foreground=\"#008899\">:</span>".toList
        ++ (Nat.repr m.column).toList
        ++ "<span foreground=\"#008899\">:</span> ".toList
        ++ "<span foreground=\"".toList ++ m.level.color ++ "\"><b>".toList
        ++ m.level_text ++ ":</b></span> ".toList,
      (match m.rule with
        | some r =>
          if r = [] then []
          else " <span foreground=\"#916a42\">[".toList ++ r ++ "]</span>".toList
        | none => []), ?_⟩
    unfold Message.get_pango_markup
    rw [hesc]
  · intro r hr
    have hrne := hrule r hr
    refine ⟨(Nat.repr m.line).toList
        ++ "<span foreground=\"#008899\">:</span>".toList
        ++ (Nat.repr m.column).toList
        ++ "<span foreground=\"#008899\">:</span> ".toList
        ++ "<span foreground=\"".toList ++ m.level.color ++ "\"><b>".toList
        ++ m.level_text ++ ":</b></span> ".toList
        ++ markup_escape_text m.message
        ++ " <span foreground=\"#916a42\">[".toList,
      "]</span>".toList, ?_⟩
    unfold Message.get_pango_markup
    rw [hr]
    simp [hrne, List.append_assoc]

/-- Witness for C10: the warning line for `/w.py` with plain message
`"bad type"` and rule `"misc"` has both recovered verbatim in its markup. -/
theorem c10_witness :
    (Message.ofMatch
        ⟨"/w.py".toList, 2, 3, 2, 9, "warning".toList, "bad type".toList,
          some "misc".toList⟩) ∈
      parse_mypy "/w.py".toList
        "/w.py:2:3:2:9: warning: bad type [misc]".toList ∧
    (∀ c ∈ "bad type".toList, plainChar c = true) ∧
    ((∀ c ∈ (Message.ofMatch
        ⟨"/w.py".toList, 2, 3, 2, 9, "warning".toList, "bad type".toList,
          some "misc".toList⟩).message, plainChar c = true) →
      List.IsInfix (Message.ofMatch
        ⟨"/w.py".toList, 2, 3, 2, 9, "warning".toList, "bad type".toList,
          some "misc".toList⟩).message
        (Message.ofMatch
        ⟨"/w.py".toList, 2, 3, 2, 9, "warning".toList, "bad type".toList,
          some "misc".toList⟩).get_pango_markup) ∧
    (∀ r, (Message.ofMatch
        ⟨"/w.py".toList, 2, 3, 2, 9, "warning".toList, "bad type".toList,
          some "misc".toList⟩).rule = some r →
      List.IsInfix r (Message.ofMatch
        ⟨"/w.py".toList, 2, 3, 2, 9, "warning".toList, "bad type".toList,
          some "misc".toList⟩).get_pango_markup) :=
  ⟨by decide, by decide,
   c10_roundtrip "/w.py".toList
     "/w.py:2:3:2:9: warning: bad type [misc]".toList
     (Message.ofMatch
        ⟨"/w.py".toList, 2, 3, 2, 9, "warning".toList, "bad type".toList,
          some "misc".toList⟩) (by decide)⟩

end GeditMypy
